import Mathlib

/-!
Verification development for the fault-tolerant HDFS accessor
(`FaultTolerantHdfsAccessor.go`): a retry decorator that wraps a raw
`HdfsAccessor` and re-runs each operation under a retry policy.

Embedding conventions:
* Go errors (`error`, possibly nil) become `Option HdfsError`; `none` is a
  nil error (success).
* The wrapped accessor is a stateful external collaborator; repeated calls
  of the same method inside one retry loop may return different results.
  We embed that statefulness as an oracle indexed by the attempt number
  (`Nat`): attempt `i` of `Stat(path)` returns `impl.stat path i`.
* Each retry loop is translated with an explicit fuel argument so that the
  recursion is structural; the public methods supply fuel
  `retryPolicy.maxAttempts`, which is proved sufficient (the modelled
  policy grants at most `maxAttempts - 1` retries, so the fuel-exhausted
  branch is unreachable from the public entry points).
* The loops are instrumented: besides the Go return values they record the
  number of underlying calls, the number of `ShouldRetry` invocations, the
  list of underlying invocations (with the arguments passed), and the
  `Operation` states consulted at each `ShouldRetry` invocation.
-/

/-- Errors surfaced by the underlying accessor.  The classifier
(`IsSuccessOrBenignError`) distinguishes benign (final, non-retryable)
errors from retryable ones, so the embedding carries that classification
in the error value, plus a message used for diagnostics. -/
inductive HdfsError : Type where
  | benign (msg : String) : HdfsError
  | retryable (msg : String) : HdfsError
deriving DecidableEq, Repr

/-- Modelled from the spec: `IsSuccessOrBenignError` is the error
classifier (its defining file is not part of the given source).  Per the
spec, "benign" covers both a nil error and errors that are semantically
final; any other non-nil error is retryable. -/
def IsSuccessOrBenignError : Option HdfsError → Bool
  | none => true
  | some (HdfsError.benign _) => true
  | some (HdfsError.retryable _) => false

/-- Rendering of a possibly-nil error for diagnostic messages (Go's `%s`). -/
def errText : Option HdfsError → String
  | none => "<nil>"
  | some (HdfsError.benign m) => m
  | some (HdfsError.retryable m) => m

/-- Opaque raw sequential read handle returned by the wrapped accessor. -/
structure HdfsReader : Type where
  id : Nat
deriving DecidableEq, Repr, Inhabited

/-- Opaque raw write handle returned by the wrapped accessor. -/
structure HdfsWriter : Type where
  id : Nat
deriving DecidableEq, Repr, Inhabited

/-- Opaque raw random-access read handle returned by the wrapped accessor. -/
structure RandomAccessHdfsReader : Type where
  id : Nat
deriving DecidableEq, Repr, Inhabited

/-- File/directory metadata snapshot; opaque payload passed through
unchanged by the retry layer. -/
structure Attrs : Type where
  name : String
  size : Nat
deriving DecidableEq, Repr, Inhabited

/-- Modelled from the spec: `RetryPolicy` (its defining file is not part
of the given source) is immutable configuration, opaque to this core
except for its attempt budget; factory for `Operation`. -/
structure RetryPolicy : Type where
  maxAttempts : Nat
deriving DecidableEq, Repr

/-- Modelled from the spec: an `Operation` is per-call mutable retry
bookkeeping (attempt counter plus a reference to its policy), created
fresh at the start of every logical call. -/
structure Operation : Type where
  policy : RetryPolicy
  attempt : Nat
deriving DecidableEq, Repr

/-- Modelled from the spec: a `RetryPolicy` produces a fresh `Operation`
at the start of each logical call; the first attempt is attempt 1. -/
def RetryPolicy.StartOperation (p : RetryPolicy) : Operation :=
  ⟨p, 1⟩

/-- Modelled from the spec: `ShouldRetry(message, error)` decides whether
to retry, internally applying its budget; the attempt counter only
increases.  The decision grants another attempt exactly when the next
attempt number still fits in the policy's budget; the diagnostic message
and error are for observability and do not affect the decision (backoff
timing is outside the embedding).  Go mutates the operation in place; the
embedding returns the decision together with the updated operation. -/
def Operation.ShouldRetry (op : Operation) (msg : String) (err : Option HdfsError) :
    Bool × Operation :=
  (decide (op.attempt + 1 ≤ op.policy.maxAttempts), ⟨op.policy, op.attempt + 1⟩)

/-- The raw accessor interface (`HdfsAccessor`), the wrapped external
collaborator.  Each method is embedded as an oracle from an attempt index
to that call's outcome, which models the collaborator's statefulness
across the repeated calls a retry loop makes.  Go methods returning
`(value, error)` become pairs; nilable Go interface results become
`Option`. -/
structure HdfsAccessor : Type where
  ensureConnected : Nat → Option HdfsError
  openRead : String → Nat → Option HdfsReader × Option HdfsError
  openReadForRandomAccess : String → Nat → Option RandomAccessHdfsReader × Nat × Option HdfsError
  openWrite : String → Nat → Option HdfsWriter × Option HdfsError
  readDir : String → Nat → List Attrs × Option HdfsError
  stat : String → Nat → Attrs × Option HdfsError
  mkdir : String → Nat → Nat → Option HdfsError

/-- Modelled from the spec: the Fault-Tolerant Reader wrapper
(`FaultTolerantHdfsReader`, whose defining file is not part of the given
source) carries the file path, the current raw stream, the accessor used
to reopen, the retry policy, and the cumulative count of bytes already
delivered (`pos`). -/
structure FaultTolerantHdfsReader : Type where
  path : String
  impl : Option HdfsReader
  hdfsAccessor : HdfsAccessor
  retryPolicy : RetryPolicy
  pos : Nat

/-- Modelled from the spec: constructor used at `OpenRead`'s success exit;
the wrapper starts at logical offset 0. -/
def NewFaultTolerantHdfsReader (path : String) (impl : Option HdfsReader)
    (hdfsAccessor : HdfsAccessor) (retryPolicy : RetryPolicy) : FaultTolerantHdfsReader :=
  ⟨path, impl, hdfsAccessor, retryPolicy, 0⟩

/-- Modelled from the spec: the Fault-Tolerant Writer wrapper
(`FaultTolerantHdfsWriter`, whose defining file is not part of the given
source) holds only the raw stream — no path and no policy. -/
structure FaultTolerantHdfsWriter : Type where
  Impl : Option HdfsWriter

/-- One underlying invocation made by a retry loop, recorded with the
argument values actually passed to the wrapped accessor. -/
inductive ImplCall : Type where
  | ensureConnected : ImplCall
  | openRead (path : String) : ImplCall
  | openReadForRandomAccess (path : String) : ImplCall
  | openWrite (path : String) : ImplCall
  | readDir (path : String) : ImplCall
  | stat (path : String) : ImplCall
  | mkdir (path : String) (mode : Nat) : ImplCall
deriving DecidableEq, Repr

/-- Instrumented result of one retry loop: the Go return values (`value`,
`err`) plus the execution record — number of underlying calls, number of
`ShouldRetry` invocations, the underlying invocations in order, and the
`Operation` state consulted at each `ShouldRetry` invocation. -/
structure LoopRes (α : Type) : Type where
  value : α
  err : Option HdfsError
  calls : Nat
  queries : Nat
  log : List ImplCall
  opsLog : List Operation
deriving Repr

/-- The fault-tolerant decorator: wraps a raw accessor and a retry
policy (Go struct `FaultTolerantHdfsAccessor`). -/
structure FaultTolerantHdfsAccessor : Type where
  Impl : HdfsAccessor
  retryPolicy : RetryPolicy

/-- Creates an instance of `FaultTolerantHdfsAccessor` (Go
`NewFaultTolerantHdfsAccessor`). -/
def NewFaultTolerantHdfsAccessor (impl : HdfsAccessor) (retryPolicy : RetryPolicy) :
    FaultTolerantHdfsAccessor :=
  ⟨impl, retryPolicy⟩

/-- Diagnostic string of `EnsureConnected` (Go format `"Connect: %s"`). -/
def connectDiag (err : Option HdfsError) : String :=
  "Connect: " ++ errText err

/-- Diagnostic string of `OpenRead` (Go format `"[%s] OpenRead: %s"`). -/
def openReadDiag (path : String) (err : Option HdfsError) : String :=
  "[" ++ path ++ "] OpenRead: " ++ errText err

/-- Diagnostic string of `OpenReadForRandomAccess`. -/
def openRandomDiag (path : String) (err : Option HdfsError) : String :=
  "[" ++ path ++ "] OpenReadForRandomAccess: " ++ errText err

/-- Diagnostic string of `OpenWrite` (Go format `"[%s] OpenWrite: %s"`). -/
def openWriteDiag (path : String) (err : Option HdfsError) : String :=
  "[" ++ path ++ "] OpenWrite: " ++ errText err

/-- Diagnostic string of `ReadDir` (Go format `"[%s] ReadDir: %s"`). -/
def readDirDiag (path : String) (err : Option HdfsError) : String :=
  "[" ++ path ++ "] ReadDir: " ++ errText err

/-- Diagnostic string of `Stat` (Go format `"[%s] Stat: %s"`). -/
def statDiag (path : String) (err : Option HdfsError) : String :=
  "[" ++ path ++ "] Stat: " ++ errText err

/-- Diagnostic string of `Mkdir` (Go format `"[%s] Mkdir %s: %s"`). -/
def mkdirDiag (path : String) (mode : Nat) (err : Option HdfsError) : String :=
  "[" ++ path ++ "] Mkdir " ++ toString mode ++ ": " ++ errText err

/-- Retry loop of `EnsureConnected` (source lines 27-32): call the
wrapped accessor; return on a success-or-benign error, otherwise ask the
single threaded `Operation` whether to retry (short-circuit: `ShouldRetry`
is not consulted on a benign outcome) and loop or return the error. -/
def ensureConnectedLoop (impl : HdfsAccessor) (fuel idx : Nat) (op : Operation) :
    LoopRes Unit :=
  let e := impl.ensureConnected idx
  if IsSuccessOrBenignError e then
    ⟨(), e, 1, 0, [ImplCall.ensureConnected], []⟩
  else
    let d := op.ShouldRetry (connectDiag e) e
    if d.1 then
      match fuel with
      | 0 => ⟨(), e, 1, 1, [ImplCall.ensureConnected], [op]⟩
      | fuel' + 1 =>
        let rest := ensureConnectedLoop impl fuel' (idx + 1) d.2
        ⟨rest.value, rest.err, rest.calls + 1, rest.queries + 1,
          ImplCall.ensureConnected :: rest.log, op :: rest.opsLog⟩
    else
      ⟨(), e, 1, 1, [ImplCall.ensureConnected], [op]⟩

/-- Retry loop of `OpenRead` (source lines 38-47): on a nil error the raw
reader is wrapped with `NewFaultTolerantHdfsReader(path, result, impl,
retryPolicy)` and returned; on a benign error or when the policy declines,
`(nil, err)` is returned. -/
def openReadLoop (impl : HdfsAccessor) (retryPolicy : RetryPolicy) (path : String)
    (fuel idx : Nat) (op : Operation) : LoopRes (Option FaultTolerantHdfsReader) :=
  let r := impl.openRead path idx
  if r.2 = none then
    ⟨some (NewFaultTolerantHdfsReader path r.1 impl retryPolicy), none, 1, 0,
      [ImplCall.openRead path], []⟩
  else if IsSuccessOrBenignError r.2 then
    ⟨none, r.2, 1, 0, [ImplCall.openRead path], []⟩
  else
    let d := op.ShouldRetry (openReadDiag path r.2) r.2
    if d.1 then
      match fuel with
      | 0 => ⟨none, r.2, 1, 1, [ImplCall.openRead path], [op]⟩
      | fuel' + 1 =>
        let rest := openReadLoop impl retryPolicy path fuel' (idx + 1) d.2
        ⟨rest.value, rest.err, rest.calls + 1, rest.queries + 1,
          ImplCall.openRead path :: rest.log, op :: rest.opsLog⟩
    else
      ⟨none, r.2, 1, 1, [ImplCall.openRead path], [op]⟩

/-- Retry loop of `OpenReadForRandomAccess` (source lines 53-61): on a nil
error the raw reader and size are returned as-is (no wrapping); on a
benign error or when the policy declines, `(nil, 0, err)` is returned. -/
def openRandomLoop (impl : HdfsAccessor) (path : String) (fuel idx : Nat)
    (op : Operation) : LoopRes (Option RandomAccessHdfsReader × Nat) :=
  let r := impl.openReadForRandomAccess path idx
  if r.2.2 = none then
    ⟨(r.1, r.2.1), none, 1, 0, [ImplCall.openReadForRandomAccess path], []⟩
  else if IsSuccessOrBenignError r.2.2 then
    ⟨(none, 0), r.2.2, 1, 0, [ImplCall.openReadForRandomAccess path], []⟩
  else
    let d := op.ShouldRetry (openRandomDiag path r.2.2) r.2.2
    if d.1 then
      match fuel with
      | 0 => ⟨(none, 0), r.2.2, 1, 1, [ImplCall.openReadForRandomAccess path], [op]⟩
      | fuel' + 1 =>
        let rest := openRandomLoop impl path fuel' (idx + 1) d.2
        ⟨rest.value, rest.err, rest.calls + 1, rest.queries + 1,
          ImplCall.openReadForRandomAccess path :: rest.log, op :: rest.opsLog⟩
    else
      ⟨(none, 0), r.2.2, 1, 1, [ImplCall.openReadForRandomAccess path], [op]⟩

/-- Retry loop of `OpenWrite` (source lines 67-76): on a nil error the raw
writer is wrapped as `FaultTolerantHdfsWriter` holding only the raw
stream; on a benign error or when the policy declines, `(nil, err)` is
returned. -/
def openWriteLoop (impl : HdfsAccessor) (path : String) (fuel idx : Nat)
    (op : Operation) : LoopRes (Option FaultTolerantHdfsWriter) :=
  let r := impl.openWrite path idx
  if r.2 = none then
    ⟨some ⟨r.1⟩, none, 1, 0, [ImplCall.openWrite path], []⟩
  else if IsSuccessOrBenignError r.2 then
    ⟨none, r.2, 1, 0, [ImplCall.openWrite path], []⟩
  else
    let d := op.ShouldRetry (openWriteDiag path r.2) r.2
    if d.1 then
      match fuel with
      | 0 => ⟨none, r.2, 1, 1, [ImplCall.openWrite path], [op]⟩
      | fuel' + 1 =>
        let rest := openWriteLoop impl path fuel' (idx + 1) d.2
        ⟨rest.value, rest.err, rest.calls + 1, rest.queries + 1,
          ImplCall.openWrite path :: rest.log, op :: rest.opsLog⟩
    else
      ⟨none, r.2, 1, 1, [ImplCall.openWrite path], [op]⟩

/-- Retry loop of `ReadDir` (source lines 82-87): result and error are
returned as they came from the wrapped accessor. -/
def readDirLoop (impl : HdfsAccessor) (path : String) (fuel idx : Nat)
    (op : Operation) : LoopRes (List Attrs) :=
  let r := impl.readDir path idx
  if IsSuccessOrBenignError r.2 then
    ⟨r.1, r.2, 1, 0, [ImplCall.readDir path], []⟩
  else
    let d := op.ShouldRetry (readDirDiag path r.2) r.2
    if d.1 then
      match fuel with
      | 0 => ⟨r.1, r.2, 1, 1, [ImplCall.readDir path], [op]⟩
      | fuel' + 1 =>
        let rest := readDirLoop impl path fuel' (idx + 1) d.2
        ⟨rest.value, rest.err, rest.calls + 1, rest.queries + 1,
          ImplCall.readDir path :: rest.log, op :: rest.opsLog⟩
    else
      ⟨r.1, r.2, 1, 1, [ImplCall.readDir path], [op]⟩

/-- Retry loop of `Stat` (source lines 93-98): result and error are
returned as they came from the wrapped accessor. -/
def statLoop (impl : HdfsAccessor) (path : String) (fuel idx : Nat)
    (op : Operation) : LoopRes Attrs :=
  let r := impl.stat path idx
  if IsSuccessOrBenignError r.2 then
    ⟨r.1, r.2, 1, 0, [ImplCall.stat path], []⟩
  else
    let d := op.ShouldRetry (statDiag path r.2) r.2
    if d.1 then
      match fuel with
      | 0 => ⟨r.1, r.2, 1, 1, [ImplCall.stat path], [op]⟩
      | fuel' + 1 =>
        let rest := statLoop impl path fuel' (idx + 1) d.2
        ⟨rest.value, rest.err, rest.calls + 1, rest.queries + 1,
          ImplCall.stat path :: rest.log, op :: rest.opsLog⟩
    else
      ⟨r.1, r.2, 1, 1, [ImplCall.stat path], [op]⟩

/-- Retry loop of `Mkdir` (source lines 104-108): path and mode are passed
to the wrapped accessor unchanged on every attempt. -/
def mkdirLoop (impl : HdfsAccessor) (path : String) (mode : Nat) (fuel idx : Nat)
    (op : Operation) : LoopRes Unit :=
  let e := impl.mkdir path mode idx
  if IsSuccessOrBenignError e then
    ⟨(), e, 1, 0, [ImplCall.mkdir path mode], []⟩
  else
    let d := op.ShouldRetry (mkdirDiag path mode e) e
    if d.1 then
      match fuel with
      | 0 => ⟨(), e, 1, 1, [ImplCall.mkdir path mode], [op]⟩
      | fuel' + 1 =>
        let rest := mkdirLoop impl path mode fuel' (idx + 1) d.2
        ⟨rest.value, rest.err, rest.calls + 1, rest.queries + 1,
          ImplCall.mkdir path mode :: rest.log, op :: rest.opsLog⟩
    else
      ⟨(), e, 1, 1, [ImplCall.mkdir path mode], [op]⟩

/-- Instrumented run of `EnsureConnected`: a fresh `Operation` is started
from the configured policy, then the loop runs from attempt index 0.  The
fuel `maxAttempts` is sufficient: the modelled policy grants at most
`maxAttempts - 1` retries. -/
def FaultTolerantHdfsAccessor.ensureConnectedRun (a : FaultTolerantHdfsAccessor) :
    LoopRes Unit :=
  ensureConnectedLoop a.Impl a.retryPolicy.maxAttempts 0 a.retryPolicy.StartOperation

/-- `EnsureConnected` of the fault-tolerant accessor (source lines 25-33). -/
def FaultTolerantHdfsAccessor.EnsureConnected (a : FaultTolerantHdfsAccessor) :
    Option HdfsError :=
  (a.ensureConnectedRun).err

/-- Instrumented run of `OpenRead`. -/
def FaultTolerantHdfsAccessor.openReadRun (a : FaultTolerantHdfsAccessor)
    (path : String) : LoopRes (Option FaultTolerantHdfsReader) :=
  openReadLoop a.Impl a.retryPolicy path a.retryPolicy.maxAttempts 0
    a.retryPolicy.StartOperation

/-- `OpenRead` of the fault-tolerant accessor (source lines 36-48). -/
def FaultTolerantHdfsAccessor.OpenRead (a : FaultTolerantHdfsAccessor)
    (path : String) : Option FaultTolerantHdfsReader × Option HdfsError :=
  ((a.openReadRun path).value, (a.openReadRun path).err)

/-- Instrumented run of `OpenReadForRandomAccess`. -/
def FaultTolerantHdfsAccessor.openRandomRun (a : FaultTolerantHdfsAccessor)
    (path : String) : LoopRes (Option RandomAccessHdfsReader × Nat) :=
  openRandomLoop a.Impl path a.retryPolicy.maxAttempts 0 a.retryPolicy.StartOperation

/-- `OpenReadForRandomAccess` of the fault-tolerant accessor (source lines
51-62): returns reader, size and error. -/
def FaultTolerantHdfsAccessor.OpenReadForRandomAccess (a : FaultTolerantHdfsAccessor)
    (path : String) : Option RandomAccessHdfsReader × Nat × Option HdfsError :=
  ((a.openRandomRun path).value.1, (a.openRandomRun path).value.2,
    (a.openRandomRun path).err)

/-- Instrumented run of `OpenWrite`. -/
def FaultTolerantHdfsAccessor.openWriteRun (a : FaultTolerantHdfsAccessor)
    (path : String) : LoopRes (Option FaultTolerantHdfsWriter) :=
  openWriteLoop a.Impl path a.retryPolicy.maxAttempts 0 a.retryPolicy.StartOperation

/-- `OpenWrite` of the fault-tolerant accessor (source lines 65-77). -/
def FaultTolerantHdfsAccessor.OpenWrite (a : FaultTolerantHdfsAccessor)
    (path : String) : Option FaultTolerantHdfsWriter × Option HdfsError :=
  ((a.openWriteRun path).value, (a.openWriteRun path).err)

/-- Instrumented run of `ReadDir`. -/
def FaultTolerantHdfsAccessor.readDirRun (a : FaultTolerantHdfsAccessor)
    (path : String) : LoopRes (List Attrs) :=
  readDirLoop a.Impl path a.retryPolicy.maxAttempts 0 a.retryPolicy.StartOperation

/-- `ReadDir` of the fault-tolerant accessor (source lines 80-88). -/
def FaultTolerantHdfsAccessor.ReadDir (a : FaultTolerantHdfsAccessor)
    (path : String) : List Attrs × Option HdfsError :=
  ((a.readDirRun path).value, (a.readDirRun path).err)

/-- Instrumented run of `Stat`. -/
def FaultTolerantHdfsAccessor.statRun (a : FaultTolerantHdfsAccessor)
    (path : String) : LoopRes Attrs :=
  statLoop a.Impl path a.retryPolicy.maxAttempts 0 a.retryPolicy.StartOperation

/-- `Stat` of the fault-tolerant accessor (source lines 91-99). -/
def FaultTolerantHdfsAccessor.Stat (a : FaultTolerantHdfsAccessor)
    (path : String) : Attrs × Option HdfsError :=
  ((a.statRun path).value, (a.statRun path).err)

/-- Instrumented run of `Mkdir`. -/
def FaultTolerantHdfsAccessor.mkdirRun (a : FaultTolerantHdfsAccessor)
    (path : String) (mode : Nat) : LoopRes Unit :=
  mkdirLoop a.Impl path mode a.retryPolicy.maxAttempts 0 a.retryPolicy.StartOperation

/-- `Mkdir` of the fault-tolerant accessor (source lines 102-109). -/
def FaultTolerantHdfsAccessor.Mkdir (a : FaultTolerantHdfsAccessor)
    (path : String) (mode : Nat) : Option HdfsError :=
  (a.mkdirRun path mode).err

/-- The common retry-loop pattern shared by all seven operations,
abstracted over the per-attempt outcome oracle `call`, the diagnostic
renderer `diag` and the recorded invocation `ev`.  Each concrete loop is
proved equal to an instance of this pattern (see the `..._eq` lemmas), so
properties of the pattern transfer to every operation. -/
def retryLoop {α : Type} (call : Nat → α × Option HdfsError)
    (diag : Option HdfsError → String) (ev : ImplCall)
    (fuel idx : Nat) (op : Operation) : LoopRes α :=
  let r := call idx
  if IsSuccessOrBenignError r.2 then
    ⟨r.1, r.2, 1, 0, [ev], []⟩
  else
    let d := op.ShouldRetry (diag r.2) r.2
    if d.1 then
      match fuel with
      | 0 => ⟨r.1, r.2, 1, 1, [ev], [op]⟩
      | fuel' + 1 =>
        let rest := retryLoop call diag ev fuel' (idx + 1) d.2
        ⟨rest.value, rest.err, rest.calls + 1, rest.queries + 1,
          ev :: rest.log, op :: rest.opsLog⟩
    else
      ⟨r.1, r.2, 1, 1, [ev], [op]⟩

/-- `ensureConnectedLoop` is an instance of the common pattern (the value
slot is `Unit`). -/
lemma ensureConnectedLoop_eq (impl : HdfsAccessor) :
    ∀ fuel idx op, ensureConnectedLoop impl fuel idx op =
      retryLoop (fun i => ((), impl.ensureConnected i)) connectDiag
        ImplCall.ensureConnected fuel idx op := by
  intro fuel
  induction fuel with
  | zero => intro idx op; rw [ensureConnectedLoop, retryLoop]
  | succ n ih =>
    intro idx op
    rw [ensureConnectedLoop, retryLoop]
    simp only [ih]

/-- Replace the value slot of an instrumented loop result, keeping the
execution record. -/
def LoopRes.withValue {α β : Type} (r : LoopRes α) (v : β) : LoopRes β :=
  ⟨v, r.err, r.calls, r.queries, r.log, r.opsLog⟩

/-- `openReadLoop` is the common pattern followed by the success-exit
wrapping: on a nil final error the raw reader of the successful attempt is
wrapped via `NewFaultTolerantHdfsReader`, otherwise the handle slot is
`none`. -/
lemma openReadLoop_eq (impl : HdfsAccessor) (rp : RetryPolicy) (path : String) :
    ∀ fuel idx op, openReadLoop impl rp path fuel idx op =
      (let r := retryLoop (impl.openRead path) (openReadDiag path)
          (ImplCall.openRead path) fuel idx op
       r.withValue (if r.err = none then
          some (NewFaultTolerantHdfsReader path r.value impl rp) else none)) := by
  intro fuel
  induction fuel with
  | zero =>
    intro idx op
    rw [openReadLoop, retryLoop]
    rcases h : (impl.openRead path idx).2 with _ | e
    · simp [h, IsSuccessOrBenignError, LoopRes.withValue]
    · rcases e with m | m
      · simp [h, IsSuccessOrBenignError, LoopRes.withValue]
      · by_cases hd : op.attempt + 1 ≤ op.policy.maxAttempts <;>
          simp [h, IsSuccessOrBenignError, LoopRes.withValue, Operation.ShouldRetry, hd]
  | succ n ih =>
    intro idx op
    rw [openReadLoop, retryLoop]
    rcases h : (impl.openRead path idx).2 with _ | e
    · simp [h, IsSuccessOrBenignError, LoopRes.withValue]
    · rcases e with m | m
      · simp [h, IsSuccessOrBenignError, LoopRes.withValue]
      · by_cases hd : op.attempt + 1 ≤ op.policy.maxAttempts <;>
          simp [h, IsSuccessOrBenignError, LoopRes.withValue, Operation.ShouldRetry, hd, ih]

/-- `openRandomLoop` is the common pattern followed by the success-exit
pass-through: on a nil final error the reader and size of the successful
attempt are returned exactly as the wrapped accessor produced them (no
wrapping), otherwise `(none, 0)`. -/
lemma openRandomLoop_eq (impl : HdfsAccessor) (path : String) :
    ∀ fuel idx op, openRandomLoop impl path fuel idx op =
      (let r := retryLoop
          (fun i => (((impl.openReadForRandomAccess path i).1,
            (impl.openReadForRandomAccess path i).2.1),
            (impl.openReadForRandomAccess path i).2.2))
          (openRandomDiag path) (ImplCall.openReadForRandomAccess path) fuel idx op
       r.withValue (if r.err = none then r.value else (none, 0))) := by
  intro fuel
  induction fuel with
  | zero =>
    intro idx op
    rw [openRandomLoop, retryLoop]
    rcases h : (impl.openReadForRandomAccess path idx).2.2 with _ | e
    · simp [h, IsSuccessOrBenignError, LoopRes.withValue]
    · rcases e with m | m
      · simp [h, IsSuccessOrBenignError, LoopRes.withValue]
      · by_cases hd : op.attempt + 1 ≤ op.policy.maxAttempts <;>
          simp [h, IsSuccessOrBenignError, LoopRes.withValue, Operation.ShouldRetry, hd]
  | succ n ih =>
    intro idx op
    rw [openRandomLoop, retryLoop]
    rcases h : (impl.openReadForRandomAccess path idx).2.2 with _ | e
    · simp [h, IsSuccessOrBenignError, LoopRes.withValue]
    · rcases e with m | m
      · simp [h, IsSuccessOrBenignError, LoopRes.withValue]
      · by_cases hd : op.attempt + 1 ≤ op.policy.maxAttempts <;>
          simp [h, IsSuccessOrBenignError, LoopRes.withValue, Operation.ShouldRetry, hd, ih]

/-- `openWriteLoop` is the common pattern followed by the success-exit
wrapping: on a nil final error the raw writer of the successful attempt is
wrapped as `FaultTolerantHdfsWriter`, otherwise the handle slot is
`none`. -/
lemma openWriteLoop_eq (impl : HdfsAccessor) (path : String) :
    ∀ fuel idx op, openWriteLoop impl path fuel idx op =
      (let r := retryLoop (impl.openWrite path) (openWriteDiag path)
          (ImplCall.openWrite path) fuel idx op
       r.withValue (if r.err = none then
          some (FaultTolerantHdfsWriter.mk r.value) else none)) := by
  intro fuel
  induction fuel with
  | zero =>
    intro idx op
    rw [openWriteLoop, retryLoop]
    rcases h : (impl.openWrite path idx).2 with _ | e
    · simp [h, IsSuccessOrBenignError, LoopRes.withValue]
    · rcases e with m | m
      · simp [h, IsSuccessOrBenignError, LoopRes.withValue]
      · by_cases hd : op.attempt + 1 ≤ op.policy.maxAttempts <;>
          simp [h, IsSuccessOrBenignError, LoopRes.withValue, Operation.ShouldRetry, hd]
  | succ n ih =>
    intro idx op
    rw [openWriteLoop, retryLoop]
    rcases h : (impl.openWrite path idx).2 with _ | e
    · simp [h, IsSuccessOrBenignError, LoopRes.withValue]
    · rcases e with m | m
      · simp [h, IsSuccessOrBenignError, LoopRes.withValue]
      · by_cases hd : op.attempt + 1 ≤ op.policy.maxAttempts <;>
          simp [h, IsSuccessOrBenignError, LoopRes.withValue, Operation.ShouldRetry, hd, ih]

/-- `readDirLoop` is an instance of the common pattern. -/
lemma readDirLoop_eq (impl : HdfsAccessor) (path : String) :
    ∀ fuel idx op, readDirLoop impl path fuel idx op =
      retryLoop (impl.readDir path) (readDirDiag path) (ImplCall.readDir path)
        fuel idx op := by
  intro fuel
  induction fuel with
  | zero => intro idx op; rw [readDirLoop, retryLoop]
  | succ n ih =>
    intro idx op
    rw [readDirLoop, retryLoop]
    simp only [ih]

/-- `statLoop` is an instance of the common pattern. -/
lemma statLoop_eq (impl : HdfsAccessor) (path : String) :
    ∀ fuel idx op, statLoop impl path fuel idx op =
      retryLoop (impl.stat path) (statDiag path) (ImplCall.stat path)
        fuel idx op := by
  intro fuel
  induction fuel with
  | zero => intro idx op; rw [statLoop, retryLoop]
  | succ n ih =>
    intro idx op
    rw [statLoop, retryLoop]
    simp only [ih]

/-- `mkdirLoop` is an instance of the common pattern (the value slot is
`Unit`). -/
lemma mkdirLoop_eq (impl : HdfsAccessor) (path : String) (mode : Nat) :
    ∀ fuel idx op, mkdirLoop impl path mode fuel idx op =
      retryLoop (fun i => ((), impl.mkdir path mode i)) (mkdirDiag path mode)
        (ImplCall.mkdir path mode) fuel idx op := by
  intro fuel
  induction fuel with
  | zero => intro idx op; rw [mkdirLoop, retryLoop]
  | succ n ih =>
    intro idx op
    rw [mkdirLoop, retryLoop]
    simp only [ih]

/-- Chain of `Operation` states: prepending the state with counter `a` to
the chain starting at `a + 1` gives the chain starting at `a`. -/
lemma opsChain_cons (op : Operation) (k : Nat) :
    op :: (List.range k).map
        (fun i => (⟨op.policy, op.attempt + 1 + i⟩ : Operation)) =
      (List.range (k + 1)).map
        (fun i => (⟨op.policy, op.attempt + i⟩ : Operation)) := by
  rw [List.range_succ_eq_map, List.map_cons, List.map_map]
  refine congrArg₂ List.cons (by simp) ?_
  apply List.map_congr_left
  intro i _
  simp only [Function.comp_apply, Operation.mk.injEq]
  exact ⟨trivial, by omega⟩

/-- If the first `k` attempts fail with retryable errors, attempt `k` (the
`k+1`-st call) comes back success-or-benign, and `k` more attempts fit the
operation's remaining budget, the retry loop performs exactly `k + 1`
underlying calls, consults `ShouldRetry` exactly `k` times (on the states
with counters `op.attempt, …, op.attempt + k - 1`), and returns the
outcome of the successful attempt verbatim. -/
lemma retryLoop_fail_then_benign {α : Type} (call : Nat → α × Option HdfsError)
    (diag : Option HdfsError → String) (ev : ImplCall) :
    ∀ (k fuel idx : Nat) (op : Operation),
      (∀ i, i < k → IsSuccessOrBenignError (call (idx + i)).2 = false) →
      IsSuccessOrBenignError (call (idx + k)).2 = true →
      op.attempt + k ≤ op.policy.maxAttempts →
      k ≤ fuel →
      retryLoop call diag ev fuel idx op =
        ⟨(call (idx + k)).1, (call (idx + k)).2, k + 1, k,
          List.replicate (k + 1) ev,
          (List.range k).map (fun i => ⟨op.policy, op.attempt + i⟩)⟩ := by
  intro k
  induction k with
  | zero =>
    intro fuel idx op hfail hsucc hbud hfuel
    rw [retryLoop]
    simp only [Nat.add_zero] at hsucc
    simp [hsucc]
  | succ k ih =>
    intro fuel idx op hfail hsucc hbud hfuel
    obtain ⟨fuel', rfl⟩ : ∃ m, fuel = m + 1 := ⟨fuel - 1, by omega⟩
    rw [retryLoop]
    have h0 : IsSuccessOrBenignError (call idx).2 = false := by
      have h := hfail 0 (Nat.succ_pos k)
      simpa using h
    have hret : op.attempt + 1 ≤ op.policy.maxAttempts := by omega
    have hrec := ih fuel' (idx + 1) ⟨op.policy, op.attempt + 1⟩
      (fun i hi => by
        have h := hfail (i + 1) (by omega)
        have hidx : idx + (i + 1) = idx + 1 + i := by omega
        rwa [hidx] at h)
      (by
        have hidx : idx + (k + 1) = idx + 1 + k := by omega
        rwa [hidx] at hsucc)
      (by simp only []; omega)
      (by omega)
    have hidx : idx + 1 + k = idx + (k + 1) := by omega
    simp [h0, Operation.ShouldRetry, hret, hrec, hidx, opsChain_cons,
      List.replicate_succ]

/-- If every attempt the budget allows fails with a retryable error, the
retry loop performs exactly `n + 1` underlying calls, where
`n = maxAttempts - op.attempt` is the number of retries the operation may
still grant, consults `ShouldRetry` after every one of them (the last
consultation declines), and returns the error of the last underlying
attempt verbatim. -/
lemma retryLoop_all_fail {α : Type} (call : Nat → α × Option HdfsError)
    (diag : Option HdfsError → String) (ev : ImplCall) :
    ∀ (n fuel idx : Nat) (op : Operation),
      (∀ i, i ≤ n → IsSuccessOrBenignError (call (idx + i)).2 = false) →
      op.attempt ≤ op.policy.maxAttempts →
      n = op.policy.maxAttempts - op.attempt →
      n ≤ fuel →
      retryLoop call diag ev fuel idx op =
        ⟨(call (idx + n)).1, (call (idx + n)).2, n + 1, n + 1,
          List.replicate (n + 1) ev,
          (List.range (n + 1)).map (fun i => ⟨op.policy, op.attempt + i⟩)⟩ := by
  intro n
  induction n with
  | zero =>
    intro fuel idx op hfail hle hn hfuel
    rw [retryLoop]
    have h0 : IsSuccessOrBenignError (call idx).2 = false := by
      have h := hfail 0 (Nat.le_refl 0)
      simpa using h
    have hstop : ¬ (op.attempt + 1 ≤ op.policy.maxAttempts) := by omega
    simp [h0, Operation.ShouldRetry, hstop, List.range_succ, List.range_zero]
  | succ n ih =>
    intro fuel idx op hfail hle hn hfuel
    obtain ⟨fuel', rfl⟩ : ∃ m, fuel = m + 1 := ⟨fuel - 1, by omega⟩
    rw [retryLoop]
    have h0 : IsSuccessOrBenignError (call idx).2 = false := by
      have h := hfail 0 (Nat.zero_le _)
      simpa using h
    have hret : op.attempt + 1 ≤ op.policy.maxAttempts := by omega
    have hrec := ih fuel' (idx + 1) ⟨op.policy, op.attempt + 1⟩
      (fun i hi => by
        have h := hfail (i + 1) (by omega)
        have hidx : idx + (i + 1) = idx + 1 + i := by omega
        rwa [hidx] at h)
      (by simp only []; omega)
      (by simp only []; omega)
      (by omega)
    have hidx : idx + 1 + n = idx + (n + 1) := by omega
    simp [h0, Operation.ShouldRetry, hret, hrec, hidx, opsChain_cons,
      List.replicate_succ]

/-- The retry loop always performs at least one underlying call. -/
lemma retryLoop_calls_pos {α : Type} (call : Nat → α × Option HdfsError)
    (diag : Option HdfsError → String) (ev : ImplCall) :
    ∀ fuel idx op, 1 ≤ (retryLoop call diag ev fuel idx op).calls := by
  intro fuel
  induction fuel with
  | zero =>
    intro idx op
    rw [retryLoop]
    by_cases hb : IsSuccessOrBenignError (call idx).2 = true
    · simp [hb]
    · by_cases hd : (op.ShouldRetry (diag (call idx).2) (call idx).2).1 = true <;>
        simp [hb, hd]
  | succ n ih =>
    intro idx op
    rw [retryLoop]
    by_cases hb : IsSuccessOrBenignError (call idx).2 = true
    · simp [hb]
    · by_cases hd : (op.ShouldRetry (diag (call idx).2) (call idx).2).1 = true <;>
        simp [hb, hd]

/-- `ShouldRetry` is consulted exactly once per underlying call whose
error is retryable, and — thanks to the short-circuit in the loop's exit
test — zero times for a call whose outcome is success-or-benign. -/
lemma retryLoop_queries_count {α : Type} (call : Nat → α × Option HdfsError)
    (diag : Option HdfsError → String) (ev : ImplCall) :
    ∀ fuel idx op,
      (retryLoop call diag ev fuel idx op).queries =
        (List.range (retryLoop call diag ev fuel idx op).calls).countP
          (fun i => !IsSuccessOrBenignError (call (idx + i)).2) := by
  intro fuel
  induction fuel with
  | zero =>
    intro idx op
    rw [retryLoop]
    by_cases hb : IsSuccessOrBenignError (call idx).2 = true
    · simp [hb, List.range_succ, List.range_zero, List.countP_cons, List.countP_nil]
    · by_cases hd : op.attempt + 1 ≤ op.policy.maxAttempts <;>
        simp [hb, hd, Operation.ShouldRetry, List.range_succ, List.range_zero, List.countP_cons,
          List.countP_nil]
  | succ n ih =>
    intro idx op
    rw [retryLoop]
    by_cases hb : IsSuccessOrBenignError (call idx).2 = true
    · simp [hb, List.range_succ, List.range_zero, List.countP_cons, List.countP_nil]
    · by_cases hd : op.attempt + 1 ≤ op.policy.maxAttempts
      · have hshift :
            (List.range (retryLoop call diag ev n (idx + 1) ⟨op.policy, op.attempt + 1⟩).calls).countP
                (fun i => !IsSuccessOrBenignError (call (idx + 1 + i)).2) =
              (List.range (retryLoop call diag ev n (idx + 1) ⟨op.policy, op.attempt + 1⟩).calls).countP
                (fun i => !IsSuccessOrBenignError (call (idx + (i + 1))).2) := by
          apply List.countP_congr
          intro i _
          have hidx : idx + 1 + i = idx + (i + 1) := by omega
          rw [hidx]
        simp [hb, hd, Operation.ShouldRetry, ih, hshift,
          List.range_succ_eq_map, List.countP_cons, List.countP_map,
          Function.comp_def]
      · simp [hb, hd, Operation.ShouldRetry, List.range_succ, List.range_zero, List.countP_cons,
          List.countP_nil]

/-- Every `ShouldRetry` decision of one loop run is made on the single
`Operation` threaded through the loop: the `i`-th consulted state carries
the starting policy and the attempt counter `op.attempt + i` — the counter
persists and increments across attempts; no fresh `Operation` appears. -/
lemma retryLoop_opsLog_chain {α : Type} (call : Nat → α × Option HdfsError)
    (diag : Option HdfsError → String) (ev : ImplCall) :
    ∀ fuel idx op,
      (retryLoop call diag ev fuel idx op).opsLog =
        (List.range (retryLoop call diag ev fuel idx op).queries).map
          (fun i => ⟨op.policy, op.attempt + i⟩) := by
  intro fuel
  induction fuel with
  | zero =>
    intro idx op
    rw [retryLoop]
    by_cases hb : IsSuccessOrBenignError (call idx).2 = true
    · simp [hb]
    · by_cases hd : op.attempt + 1 ≤ op.policy.maxAttempts <;>
        simp [hb, hd, Operation.ShouldRetry, List.range_succ, List.range_zero]
  | succ n ih =>
    intro idx op
    rw [retryLoop]
    by_cases hb : IsSuccessOrBenignError (call idx).2 = true
    · simp [hb]
    · by_cases hd : op.attempt + 1 ≤ op.policy.maxAttempts
      · simp [hb, hd, Operation.ShouldRetry, ih, opsChain_cons]
      · simp [hb, hd, Operation.ShouldRetry, List.range_succ, List.range_zero]

/-- Every underlying invocation recorded during one loop run is the same
call with the same arguments: the log is `calls` copies of the single
recorded invocation shape. -/
lemma retryLoop_log_replicate {α : Type} (call : Nat → α × Option HdfsError)
    (diag : Option HdfsError → String) (ev : ImplCall) :
    ∀ fuel idx op,
      (retryLoop call diag ev fuel idx op).log =
        List.replicate (retryLoop call diag ev fuel idx op).calls ev := by
  intro fuel
  induction fuel with
  | zero =>
    intro idx op
    rw [retryLoop]
    by_cases hb : IsSuccessOrBenignError (call idx).2 = true
    · simp [hb]
    · by_cases hd : op.attempt + 1 ≤ op.policy.maxAttempts <;>
        simp [hb, hd, Operation.ShouldRetry]
  | succ n ih =>
    intro idx op
    rw [retryLoop]
    by_cases hb : IsSuccessOrBenignError (call idx).2 = true
    · simp [hb]
    · by_cases hd : op.attempt + 1 ≤ op.policy.maxAttempts <;>
        simp [hb, hd, Operation.ShouldRetry, ih, List.replicate_succ]

/-- `ensureConnectedRun` as an instance of the common pattern. -/
lemma ensureConnectedRun_eq (a : FaultTolerantHdfsAccessor) :
    a.ensureConnectedRun =
      retryLoop (fun i => ((), a.Impl.ensureConnected i)) connectDiag
        ImplCall.ensureConnected a.retryPolicy.maxAttempts 0
        a.retryPolicy.StartOperation := by
  unfold FaultTolerantHdfsAccessor.ensureConnectedRun
  rw [ensureConnectedLoop_eq]

/-- `openReadRun` as an instance of the common pattern plus the
success-exit wrapping. -/
lemma openReadRun_eq (a : FaultTolerantHdfsAccessor) (path : String) :
    a.openReadRun path =
      (let r := retryLoop (a.Impl.openRead path) (openReadDiag path)
          (ImplCall.openRead path) a.retryPolicy.maxAttempts 0
          a.retryPolicy.StartOperation
       r.withValue (if r.err = none then
          some (NewFaultTolerantHdfsReader path r.value a.Impl a.retryPolicy)
        else none)) := by
  unfold FaultTolerantHdfsAccessor.openReadRun
  rw [openReadLoop_eq]

/-- `openRandomRun` as an instance of the common pattern plus the
success-exit pass-through. -/
lemma openRandomRun_eq (a : FaultTolerantHdfsAccessor) (path : String) :
    a.openRandomRun path =
      (let r := retryLoop
          (fun i => (((a.Impl.openReadForRandomAccess path i).1,
            (a.Impl.openReadForRandomAccess path i).2.1),
            (a.Impl.openReadForRandomAccess path i).2.2))
          (openRandomDiag path) (ImplCall.openReadForRandomAccess path)
          a.retryPolicy.maxAttempts 0 a.retryPolicy.StartOperation
       r.withValue (if r.err = none then r.value else (none, 0))) := by
  unfold FaultTolerantHdfsAccessor.openRandomRun
  rw [openRandomLoop_eq]

/-- `openWriteRun` as an instance of the common pattern plus the
success-exit wrapping. -/
lemma openWriteRun_eq (a : FaultTolerantHdfsAccessor) (path : String) :
    a.openWriteRun path =
      (let r := retryLoop (a.Impl.openWrite path) (openWriteDiag path)
          (ImplCall.openWrite path) a.retryPolicy.maxAttempts 0
          a.retryPolicy.StartOperation
       r.withValue (if r.err = none then
          some (FaultTolerantHdfsWriter.mk r.value) else none)) := by
  unfold FaultTolerantHdfsAccessor.openWriteRun
  rw [openWriteLoop_eq]

/-- `readDirRun` as an instance of the common pattern. -/
lemma readDirRun_eq (a : FaultTolerantHdfsAccessor) (path : String) :
    a.readDirRun path =
      retryLoop (a.Impl.readDir path) (readDirDiag path) (ImplCall.readDir path)
        a.retryPolicy.maxAttempts 0 a.retryPolicy.StartOperation := by
  unfold FaultTolerantHdfsAccessor.readDirRun
  rw [readDirLoop_eq]

/-- `statRun` as an instance of the common pattern. -/
lemma statRun_eq (a : FaultTolerantHdfsAccessor) (path : String) :
    a.statRun path =
      retryLoop (a.Impl.stat path) (statDiag path) (ImplCall.stat path)
        a.retryPolicy.maxAttempts 0 a.retryPolicy.StartOperation := by
  unfold FaultTolerantHdfsAccessor.statRun
  rw [statLoop_eq]

/-- `mkdirRun` as an instance of the common pattern. -/
lemma mkdirRun_eq (a : FaultTolerantHdfsAccessor) (path : String) (mode : Nat) :
    a.mkdirRun path mode =
      retryLoop (fun i => ((), a.Impl.mkdir path mode i)) (mkdirDiag path mode)
        (ImplCall.mkdir path mode) a.retryPolicy.maxAttempts 0
        a.retryPolicy.StartOperation := by
  unfold FaultTolerantHdfsAccessor.mkdirRun
  rw [mkdirLoop_eq]

/-- Attempt `i` of every operation of the wrapped accessor fails with an
error classified retryable (not success-or-benign). -/
def attemptRetryable (impl : HdfsAccessor) (path : String) (mode i : Nat) : Prop :=
  IsSuccessOrBenignError (impl.ensureConnected i) = false ∧
  IsSuccessOrBenignError (impl.openRead path i).2 = false ∧
  IsSuccessOrBenignError (impl.openReadForRandomAccess path i).2.2 = false ∧
  IsSuccessOrBenignError (impl.openWrite path i).2 = false ∧
  IsSuccessOrBenignError (impl.readDir path i).2 = false ∧
  IsSuccessOrBenignError (impl.stat path i).2 = false ∧
  IsSuccessOrBenignError (impl.mkdir path mode i) = false

/-- Attempt `i` of every operation of the wrapped accessor succeeds
(nil error). -/
def attemptSucceeds (impl : HdfsAccessor) (path : String) (mode i : Nat) : Prop :=
  impl.ensureConnected i = none ∧
  (impl.openRead path i).2 = none ∧
  (impl.openReadForRandomAccess path i).2.2 = none ∧
  (impl.openWrite path i).2 = none ∧
  (impl.readDir path i).2 = none ∧
  (impl.stat path i).2 = none ∧
  impl.mkdir path mode i = none

/-- Attempt `i` of every operation of the wrapped accessor comes back
classified success-or-benign. -/
def attemptBenign (impl : HdfsAccessor) (path : String) (mode i : Nat) : Prop :=
  IsSuccessOrBenignError (impl.ensureConnected i) = true ∧
  IsSuccessOrBenignError (impl.openRead path i).2 = true ∧
  IsSuccessOrBenignError (impl.openReadForRandomAccess path i).2.2 = true ∧
  IsSuccessOrBenignError (impl.openWrite path i).2 = true ∧
  IsSuccessOrBenignError (impl.readDir path i).2 = true ∧
  IsSuccessOrBenignError (impl.stat path i).2 = true ∧
  IsSuccessOrBenignError (impl.mkdir path mode i) = true

instance (impl : HdfsAccessor) (path : String) (mode i : Nat) :
    Decidable (attemptRetryable impl path mode i) := by
  unfold attemptRetryable; infer_instance

instance (impl : HdfsAccessor) (path : String) (mode i : Nat) :
    Decidable (attemptSucceeds impl path mode i) := by
  unfold attemptSucceeds; infer_instance

instance (impl : HdfsAccessor) (path : String) (mode i : Nat) :
    Decidable (attemptBenign impl path mode i) := by
  unfold attemptBenign; infer_instance

/-- C1: for every accessor operation (EnsureConnected, OpenRead,
OpenReadForRandomAccess, OpenWrite, ReadDir, Stat, Mkdir) and every
`k ≥ 0` below the policy's budget, if the wrapped accessor fails with a
retryable (non-benign) error on exactly the first `k` calls and succeeds
on call `k + 1`, the fault-tolerant accessor invokes the underlying
operation exactly `k + 1` times and returns the successful result; in
particular (`k = 0`) first-call success yields exactly one underlying
call and zero retries. -/
theorem ftAccessor_C1_k_retryable_then_success
    (impl : HdfsAccessor) (rp : RetryPolicy) (path : String) (mode k : Nat)
    (hfail : ∀ i, i < k → attemptRetryable impl path mode i)
    (hsucc : attemptSucceeds impl path mode k)
    (hk : k < rp.maxAttempts) :
    ((FaultTolerantHdfsAccessor.mk impl rp).EnsureConnected = none ∧
      (FaultTolerantHdfsAccessor.mk impl rp).ensureConnectedRun.calls = k + 1) ∧
    ((FaultTolerantHdfsAccessor.mk impl rp).OpenRead path =
        (some (NewFaultTolerantHdfsReader path (impl.openRead path k).1 impl rp),
          none) ∧
      ((FaultTolerantHdfsAccessor.mk impl rp).openReadRun path).calls = k + 1) ∧
    ((FaultTolerantHdfsAccessor.mk impl rp).OpenReadForRandomAccess path =
        ((impl.openReadForRandomAccess path k).1,
          (impl.openReadForRandomAccess path k).2.1, none) ∧
      ((FaultTolerantHdfsAccessor.mk impl rp).openRandomRun path).calls = k + 1) ∧
    ((FaultTolerantHdfsAccessor.mk impl rp).OpenWrite path =
        (some (FaultTolerantHdfsWriter.mk (impl.openWrite path k).1), none) ∧
      ((FaultTolerantHdfsAccessor.mk impl rp).openWriteRun path).calls = k + 1) ∧
    ((FaultTolerantHdfsAccessor.mk impl rp).ReadDir path =
        ((impl.readDir path k).1, none) ∧
      ((FaultTolerantHdfsAccessor.mk impl rp).readDirRun path).calls = k + 1) ∧
    ((FaultTolerantHdfsAccessor.mk impl rp).Stat path =
        ((impl.stat path k).1, none) ∧
      ((FaultTolerantHdfsAccessor.mk impl rp).statRun path).calls = k + 1) ∧
    ((FaultTolerantHdfsAccessor.mk impl rp).Mkdir path mode = none ∧
      ((FaultTolerantHdfsAccessor.mk impl rp).mkdirRun path mode).calls = k + 1) := by
  have hbud : rp.StartOperation.attempt + k ≤ rp.StartOperation.policy.maxAttempts := by
    simp [RetryPolicy.StartOperation]; omega
  have hfuel : k ≤ rp.maxAttempts := by omega
  refine ⟨?_, ?_, ?_, ?_, ?_, ?_, ?_⟩
  · have h := retryLoop_fail_then_benign (fun i => ((), impl.ensureConnected i))
      connectDiag ImplCall.ensureConnected k rp.maxAttempts 0 rp.StartOperation
      (fun i hi => by simpa using (hfail i hi).1)
      (by simpa [IsSuccessOrBenignError] using congrArg IsSuccessOrBenignError hsucc.1)
      hbud hfuel
    constructor
    · simp [FaultTolerantHdfsAccessor.EnsureConnected, ensureConnectedRun_eq, h, hsucc.1]
    · simp [ensureConnectedRun_eq, h]
  · have h := retryLoop_fail_then_benign (impl.openRead path)
      (openReadDiag path) (ImplCall.openRead path) k rp.maxAttempts 0 rp.StartOperation
      (fun i hi => by simpa using (hfail i hi).2.1)
      (by simpa [IsSuccessOrBenignError] using congrArg IsSuccessOrBenignError hsucc.2.1)
      hbud hfuel
    constructor
    · simp [FaultTolerantHdfsAccessor.OpenRead, openReadRun_eq, h, hsucc.2.1,
        LoopRes.withValue]
    · simp [openReadRun_eq, h, LoopRes.withValue]
  · have h := retryLoop_fail_then_benign
      (fun i => (((impl.openReadForRandomAccess path i).1,
        (impl.openReadForRandomAccess path i).2.1),
        (impl.openReadForRandomAccess path i).2.2))
      (openRandomDiag path) (ImplCall.openReadForRandomAccess path) k
      rp.maxAttempts 0 rp.StartOperation
      (fun i hi => by simpa using (hfail i hi).2.2.1)
      (by simpa [IsSuccessOrBenignError] using congrArg IsSuccessOrBenignError hsucc.2.2.1)
      hbud hfuel
    constructor
    · simp [FaultTolerantHdfsAccessor.OpenReadForRandomAccess, openRandomRun_eq, h,
        hsucc.2.2.1, LoopRes.withValue]
    · simp [openRandomRun_eq, h, LoopRes.withValue]
  · have h := retryLoop_fail_then_benign (impl.openWrite path)
      (openWriteDiag path) (ImplCall.openWrite path) k rp.maxAttempts 0 rp.StartOperation
      (fun i hi => by simpa using (hfail i hi).2.2.2.1)
      (by simpa [IsSuccessOrBenignError] using congrArg IsSuccessOrBenignError hsucc.2.2.2.1)
      hbud hfuel
    constructor
    · simp [FaultTolerantHdfsAccessor.OpenWrite, openWriteRun_eq, h, hsucc.2.2.2.1,
        LoopRes.withValue]
    · simp [openWriteRun_eq, h, LoopRes.withValue]
  · have h := retryLoop_fail_then_benign (impl.readDir path)
      (readDirDiag path) (ImplCall.readDir path) k rp.maxAttempts 0 rp.StartOperation
      (fun i hi => by simpa using (hfail i hi).2.2.2.2.1)
      (by simpa [IsSuccessOrBenignError] using congrArg IsSuccessOrBenignError hsucc.2.2.2.2.1)
      hbud hfuel
    constructor
    · simp [FaultTolerantHdfsAccessor.ReadDir, readDirRun_eq, h, hsucc.2.2.2.2.1]
    · simp [readDirRun_eq, h]
  · have h := retryLoop_fail_then_benign (impl.stat path)
      (statDiag path) (ImplCall.stat path) k rp.maxAttempts 0 rp.StartOperation
      (fun i hi => by simpa using (hfail i hi).2.2.2.2.2.1)
      (by simpa [IsSuccessOrBenignError] using congrArg IsSuccessOrBenignError hsucc.2.2.2.2.2.1)
      hbud hfuel
    constructor
    · simp [FaultTolerantHdfsAccessor.Stat, statRun_eq, h, hsucc.2.2.2.2.2.1]
    · simp [statRun_eq, h]
  · have h := retryLoop_fail_then_benign (fun i => ((), impl.mkdir path mode i))
      (mkdirDiag path mode) (ImplCall.mkdir path mode) k rp.maxAttempts 0
      rp.StartOperation
      (fun i hi => by simpa using (hfail i hi).2.2.2.2.2.2)
      (by simpa [IsSuccessOrBenignError] using congrArg IsSuccessOrBenignError hsucc.2.2.2.2.2.2)
      hbud hfuel
    constructor
    · simp [FaultTolerantHdfsAccessor.Mkdir, mkdirRun_eq, h, hsucc.2.2.2.2.2.2]
    · simp [mkdirRun_eq, h]

/-- Sample wrapped accessor: every operation fails with a retryable error
on attempts before `k` and succeeds from attempt `k` on. -/
def sampleFailThenOk (k : Nat) : HdfsAccessor :=
  ⟨fun i => if i < k then some (HdfsError.retryable "conn down") else none,
   fun _ i => if i < k then (none, some (HdfsError.retryable "open fail"))
     else (some ⟨7⟩, none),
   fun _ i => if i < k then (none, 0, some (HdfsError.retryable "ra fail"))
     else (some ⟨8⟩, 42, none),
   fun _ i => if i < k then (none, some (HdfsError.retryable "write fail"))
     else (some ⟨9⟩, none),
   fun _ i => if i < k then ([], some (HdfsError.retryable "readdir fail"))
     else ([⟨"entry", 1⟩], none),
   fun _ i => if i < k then (⟨"", 0⟩, some (HdfsError.retryable "stat fail"))
     else (⟨"f", 2⟩, none),
   fun _ _ i => if i < k then some (HdfsError.retryable "mkdir fail") else none⟩

/-- Sample wrapped accessor: every operation fails with a benign error on
every attempt. -/
def sampleBenign : HdfsAccessor :=
  ⟨fun _ => some (HdfsError.benign "already connected"),
   fun _ _ => (none, some (HdfsError.benign "not found")),
   fun _ _ => (none, 0, some (HdfsError.benign "not found")),
   fun _ _ => (none, some (HdfsError.benign "not found")),
   fun _ _ => ([], some (HdfsError.benign "not found")),
   fun _ _ => (⟨"", 0⟩, some (HdfsError.benign "not found")),
   fun _ _ _ => some (HdfsError.benign "exists")⟩

/-- Sample wrapped accessor: every operation fails with a retryable error
on every attempt. -/
def sampleAlwaysFail : HdfsAccessor :=
  ⟨fun _ => some (HdfsError.retryable "conn down"),
   fun _ _ => (none, some (HdfsError.retryable "open fail")),
   fun _ _ => (none, 0, some (HdfsError.retryable "ra fail")),
   fun _ _ => (none, some (HdfsError.retryable "write fail")),
   fun _ _ => ([], some (HdfsError.retryable "readdir fail")),
   fun _ _ => (⟨"", 0⟩, some (HdfsError.retryable "stat fail")),
   fun _ _ _ => some (HdfsError.retryable "mkdir fail")⟩

/-- Witness for C1: with a wrapped accessor failing retryably on the
first 2 attempts of every operation and succeeding on attempt 3, under a
budget of 4 attempts, `Stat` and `Mkdir` return the success after exactly
3 underlying calls. -/
theorem ftAccessor_C1_witness :
    2 < (4 : Nat) ∧
    (FaultTolerantHdfsAccessor.mk (sampleFailThenOk 2) ⟨4⟩).Stat "/a" =
      (⟨"f", 2⟩, none) ∧
    ((FaultTolerantHdfsAccessor.mk (sampleFailThenOk 2) ⟨4⟩).statRun "/a").calls = 3 ∧
    (FaultTolerantHdfsAccessor.mk (sampleFailThenOk 2) ⟨4⟩).Mkdir "/a" 7 = none ∧
    ((FaultTolerantHdfsAccessor.mk (sampleFailThenOk 2) ⟨4⟩).mkdirRun "/a" 7).calls = 3 := by
  have h := ftAccessor_C1_k_retryable_then_success (sampleFailThenOk 2) ⟨4⟩ "/a" 7 2
    (by decide) (by decide) (by decide)
  exact ⟨by decide, h.2.2.2.2.2.1.1, h.2.2.2.2.2.1.2, h.2.2.2.2.2.2.1, h.2.2.2.2.2.2.2⟩

/-- C2: for every accessor operation, if the wrapped accessor fails with
a retryable error on every attempt the budget allows, the fault-tolerant
accessor performs underlying calls only as long as `ShouldRetry` grants
them — exactly the policy's budgeted `maxAttempts` calls — and then
returns the error of the last underlying attempt unchanged, with no
wrapping or transformation. -/
theorem ftAccessor_C2_exhausted_returns_last_error
    (impl : HdfsAccessor) (rp : RetryPolicy) (path : String) (mode : Nat)
    (hfail : ∀ i, i < rp.maxAttempts → attemptRetryable impl path mode i)
    (hpos : 1 ≤ rp.maxAttempts) :
    ((FaultTolerantHdfsAccessor.mk impl rp).EnsureConnected =
        impl.ensureConnected (rp.maxAttempts - 1) ∧
      (FaultTolerantHdfsAccessor.mk impl rp).ensureConnectedRun.calls =
        rp.maxAttempts) ∧
    (((FaultTolerantHdfsAccessor.mk impl rp).OpenRead path).2 =
        (impl.openRead path (rp.maxAttempts - 1)).2 ∧
      ((FaultTolerantHdfsAccessor.mk impl rp).openReadRun path).calls =
        rp.maxAttempts) ∧
    (((FaultTolerantHdfsAccessor.mk impl rp).OpenReadForRandomAccess path).2.2 =
        (impl.openReadForRandomAccess path (rp.maxAttempts - 1)).2.2 ∧
      ((FaultTolerantHdfsAccessor.mk impl rp).openRandomRun path).calls =
        rp.maxAttempts) ∧
    (((FaultTolerantHdfsAccessor.mk impl rp).OpenWrite path).2 =
        (impl.openWrite path (rp.maxAttempts - 1)).2 ∧
      ((FaultTolerantHdfsAccessor.mk impl rp).openWriteRun path).calls =
        rp.maxAttempts) ∧
    (((FaultTolerantHdfsAccessor.mk impl rp).ReadDir path).2 =
        (impl.readDir path (rp.maxAttempts - 1)).2 ∧
      ((FaultTolerantHdfsAccessor.mk impl rp).readDirRun path).calls =
        rp.maxAttempts) ∧
    (((FaultTolerantHdfsAccessor.mk impl rp).Stat path).2 =
        (impl.stat path (rp.maxAttempts - 1)).2 ∧
      ((FaultTolerantHdfsAccessor.mk impl rp).statRun path).calls =
        rp.maxAttempts) ∧
    ((FaultTolerantHdfsAccessor.mk impl rp).Mkdir path mode =
        impl.mkdir path mode (rp.maxAttempts - 1) ∧
      ((FaultTolerantHdfsAccessor.mk impl rp).mkdirRun path mode).calls =
        rp.maxAttempts) := by
  have hle : rp.StartOperation.attempt ≤ rp.StartOperation.policy.maxAttempts := by
    simp [RetryPolicy.StartOperation]; omega
  have hn : rp.maxAttempts - 1 =
      rp.StartOperation.policy.maxAttempts - rp.StartOperation.attempt := by
    simp [RetryPolicy.StartOperation]
  have hfuel : rp.maxAttempts - 1 ≤ rp.maxAttempts := by omega
  have hsum : rp.maxAttempts - 1 + 1 = rp.maxAttempts := by omega
  refine ⟨?_, ?_, ?_, ?_, ?_, ?_, ?_⟩
  · have h := retryLoop_all_fail (fun i => ((), impl.ensureConnected i))
      connectDiag ImplCall.ensureConnected (rp.maxAttempts - 1) rp.maxAttempts 0
      rp.StartOperation
      (fun i hi => by simpa using (hfail i (by omega)).1) hle hn hfuel
    constructor
    · simp [FaultTolerantHdfsAccessor.EnsureConnected, ensureConnectedRun_eq, h]
    · simp [ensureConnectedRun_eq, h, hsum]
  · have h := retryLoop_all_fail (impl.openRead path) (openReadDiag path)
      (ImplCall.openRead path) (rp.maxAttempts - 1) rp.maxAttempts 0
      rp.StartOperation
      (fun i hi => by simpa using (hfail i (by omega)).2.1) hle hn hfuel
    constructor
    · simp [FaultTolerantHdfsAccessor.OpenRead, openReadRun_eq, h, LoopRes.withValue]
    · simp [openReadRun_eq, h, LoopRes.withValue, hsum]
  · have h := retryLoop_all_fail
      (fun i => (((impl.openReadForRandomAccess path i).1,
        (impl.openReadForRandomAccess path i).2.1),
        (impl.openReadForRandomAccess path i).2.2))
      (openRandomDiag path) (ImplCall.openReadForRandomAccess path)
      (rp.maxAttempts - 1) rp.maxAttempts 0 rp.StartOperation
      (fun i hi => by simpa using (hfail i (by omega)).2.2.1) hle hn hfuel
    constructor
    · simp [FaultTolerantHdfsAccessor.OpenReadForRandomAccess, openRandomRun_eq,
        h, LoopRes.withValue]
    · simp [openRandomRun_eq, h, LoopRes.withValue, hsum]
  · have h := retryLoop_all_fail (impl.openWrite path) (openWriteDiag path)
      (ImplCall.openWrite path) (rp.maxAttempts - 1) rp.maxAttempts 0
      rp.StartOperation
      (fun i hi => by simpa using (hfail i (by omega)).2.2.2.1) hle hn hfuel
    constructor
    · simp [FaultTolerantHdfsAccessor.OpenWrite, openWriteRun_eq, h, LoopRes.withValue]
    · simp [openWriteRun_eq, h, LoopRes.withValue, hsum]
  · have h := retryLoop_all_fail (impl.readDir path) (readDirDiag path)
      (ImplCall.readDir path) (rp.maxAttempts - 1) rp.maxAttempts 0
      rp.StartOperation
      (fun i hi => by simpa using (hfail i (by omega)).2.2.2.2.1) hle hn hfuel
    constructor
    · simp [FaultTolerantHdfsAccessor.ReadDir, readDirRun_eq, h]
    · simp [readDirRun_eq, h, hsum]
  · have h := retryLoop_all_fail (impl.stat path) (statDiag path)
      (ImplCall.stat path) (rp.maxAttempts - 1) rp.maxAttempts 0
      rp.StartOperation
      (fun i hi => by simpa using (hfail i (by omega)).2.2.2.2.2.1) hle hn hfuel
    constructor
    · simp [FaultTolerantHdfsAccessor.Stat, statRun_eq, h]
    · simp [statRun_eq, h, hsum]
  · have h := retryLoop_all_fail (fun i => ((), impl.mkdir path mode i))
      (mkdirDiag path mode) (ImplCall.mkdir path mode) (rp.maxAttempts - 1)
      rp.maxAttempts 0 rp.StartOperation
      (fun i hi => by simpa using (hfail i (by omega)).2.2.2.2.2.2) hle hn hfuel
    constructor
    · simp [FaultTolerantHdfsAccessor.Mkdir, mkdirRun_eq, h]
    · simp [mkdirRun_eq, h, hsum]

/-- Witness for C2: with a wrapped accessor failing retryably on every
attempt and a budget of 3 attempts, `EnsureConnected` and `ReadDir` make
exactly 3 underlying calls and surface the last retryable error as-is. -/
theorem ftAccessor_C2_witness :
    1 ≤ (3 : Nat) ∧
    (FaultTolerantHdfsAccessor.mk sampleAlwaysFail ⟨3⟩).EnsureConnected =
      some (HdfsError.retryable "conn down") ∧
    (FaultTolerantHdfsAccessor.mk sampleAlwaysFail ⟨3⟩).ensureConnectedRun.calls = 3 ∧
    ((FaultTolerantHdfsAccessor.mk sampleAlwaysFail ⟨3⟩).ReadDir "/d").2 =
      some (HdfsError.retryable "readdir fail") ∧
    ((FaultTolerantHdfsAccessor.mk sampleAlwaysFail ⟨3⟩).readDirRun "/d").calls = 3 := by
  have h := ftAccessor_C2_exhausted_returns_last_error sampleAlwaysFail ⟨3⟩ "/d" 7
    (by decide) (by decide)
  exact ⟨by decide, h.1.1, h.1.2, h.2.2.2.2.1.1, h.2.2.2.2.1.2⟩

/-- If the first attempt's outcome is classified success-or-benign, the
loop exits at once: one underlying call, zero `ShouldRetry` consultations
(short-circuit), the attempt's outcome returned verbatim.  Holds for any
fuel and any operation state — no budget is consumed or consulted. -/
lemma retryLoop_benign_first {α : Type} (call : Nat → α × Option HdfsError)
    (diag : Option HdfsError → String) (ev : ImplCall) (fuel idx : Nat)
    (op : Operation)
    (h : IsSuccessOrBenignError (call idx).2 = true) :
    retryLoop call diag ev fuel idx op =
      ⟨(call idx).1, (call idx).2, 1, 0, [ev], []⟩ := by
  rw [retryLoop]
  simp [h]

/-- C3: for every accessor operation, if the first underlying call comes
back classified success-or-benign, the fault-tolerant accessor returns
after exactly one underlying call, the (possibly nil) benign error is
returned verbatim, and the policy's retry decision is consulted at most
once (in fact never). -/
theorem ftAccessor_C3_benign_first_call
    (impl : HdfsAccessor) (rp : RetryPolicy) (path : String) (mode : Nat)
    (hben : attemptBenign impl path mode 0) :
    ((FaultTolerantHdfsAccessor.mk impl rp).EnsureConnected =
        impl.ensureConnected 0 ∧
      (FaultTolerantHdfsAccessor.mk impl rp).ensureConnectedRun.calls = 1 ∧
      (FaultTolerantHdfsAccessor.mk impl rp).ensureConnectedRun.queries ≤ 1) ∧
    (((FaultTolerantHdfsAccessor.mk impl rp).OpenRead path).2 =
        (impl.openRead path 0).2 ∧
      ((FaultTolerantHdfsAccessor.mk impl rp).openReadRun path).calls = 1 ∧
      ((FaultTolerantHdfsAccessor.mk impl rp).openReadRun path).queries ≤ 1) ∧
    (((FaultTolerantHdfsAccessor.mk impl rp).OpenReadForRandomAccess path).2.2 =
        (impl.openReadForRandomAccess path 0).2.2 ∧
      ((FaultTolerantHdfsAccessor.mk impl rp).openRandomRun path).calls = 1 ∧
      ((FaultTolerantHdfsAccessor.mk impl rp).openRandomRun path).queries ≤ 1) ∧
    (((FaultTolerantHdfsAccessor.mk impl rp).OpenWrite path).2 =
        (impl.openWrite path 0).2 ∧
      ((FaultTolerantHdfsAccessor.mk impl rp).openWriteRun path).calls = 1 ∧
      ((FaultTolerantHdfsAccessor.mk impl rp).openWriteRun path).queries ≤ 1) ∧
    (((FaultTolerantHdfsAccessor.mk impl rp).ReadDir path).2 =
        (impl.readDir path 0).2 ∧
      ((FaultTolerantHdfsAccessor.mk impl rp).readDirRun path).calls = 1 ∧
      ((FaultTolerantHdfsAccessor.mk impl rp).readDirRun path).queries ≤ 1) ∧
    (((FaultTolerantHdfsAccessor.mk impl rp).Stat path).2 =
        (impl.stat path 0).2 ∧
      ((FaultTolerantHdfsAccessor.mk impl rp).statRun path).calls = 1 ∧
      ((FaultTolerantHdfsAccessor.mk impl rp).statRun path).queries ≤ 1) ∧
    ((FaultTolerantHdfsAccessor.mk impl rp).Mkdir path mode =
        impl.mkdir path mode 0 ∧
      ((FaultTolerantHdfsAccessor.mk impl rp).mkdirRun path mode).calls = 1 ∧
      ((FaultTolerantHdfsAccessor.mk impl rp).mkdirRun path mode).queries ≤ 1) := by
  refine ⟨?_, ?_, ?_, ?_, ?_, ?_, ?_⟩
  · have h := retryLoop_benign_first (fun i => ((), impl.ensureConnected i))
      connectDiag ImplCall.ensureConnected rp.maxAttempts 0 rp.StartOperation
      (by simpa using hben.1)
    exact ⟨by simp [FaultTolerantHdfsAccessor.EnsureConnected, ensureConnectedRun_eq, h],
      by simp [ensureConnectedRun_eq, h], by simp [ensureConnectedRun_eq, h]⟩
  · have h := retryLoop_benign_first (impl.openRead path) (openReadDiag path)
      (ImplCall.openRead path) rp.maxAttempts 0 rp.StartOperation
      (by simpa using hben.2.1)
    exact ⟨by simp [FaultTolerantHdfsAccessor.OpenRead, openReadRun_eq, h,
        LoopRes.withValue],
      by simp [openReadRun_eq, h, LoopRes.withValue],
      by simp [openReadRun_eq, h, LoopRes.withValue]⟩
  · have h := retryLoop_benign_first
      (fun i => (((impl.openReadForRandomAccess path i).1,
        (impl.openReadForRandomAccess path i).2.1),
        (impl.openReadForRandomAccess path i).2.2))
      (openRandomDiag path) (ImplCall.openReadForRandomAccess path)
      rp.maxAttempts 0 rp.StartOperation (by simpa using hben.2.2.1)
    exact ⟨by simp [FaultTolerantHdfsAccessor.OpenReadForRandomAccess,
        openRandomRun_eq, h, LoopRes.withValue],
      by simp [openRandomRun_eq, h, LoopRes.withValue],
      by simp [openRandomRun_eq, h, LoopRes.withValue]⟩
  · have h := retryLoop_benign_first (impl.openWrite path) (openWriteDiag path)
      (ImplCall.openWrite path) rp.maxAttempts 0 rp.StartOperation
      (by simpa using hben.2.2.2.1)
    exact ⟨by simp [FaultTolerantHdfsAccessor.OpenWrite, openWriteRun_eq, h,
        LoopRes.withValue],
      by simp [openWriteRun_eq, h, LoopRes.withValue],
      by simp [openWriteRun_eq, h, LoopRes.withValue]⟩
  · have h := retryLoop_benign_first (impl.readDir path) (readDirDiag path)
      (ImplCall.readDir path) rp.maxAttempts 0 rp.StartOperation
      (by simpa using hben.2.2.2.2.1)
    exact ⟨by simp [FaultTolerantHdfsAccessor.ReadDir, readDirRun_eq, h],
      by simp [readDirRun_eq, h], by simp [readDirRun_eq, h]⟩
  · have h := retryLoop_benign_first (impl.stat path) (statDiag path)
      (ImplCall.stat path) rp.maxAttempts 0 rp.StartOperation
      (by simpa using hben.2.2.2.2.2.1)
    exact ⟨by simp [FaultTolerantHdfsAccessor.Stat, statRun_eq, h],
      by simp [statRun_eq, h], by simp [statRun_eq, h]⟩
  · have h := retryLoop_benign_first (fun i => ((), impl.mkdir path mode i))
      (mkdirDiag path mode) (ImplCall.mkdir path mode) rp.maxAttempts 0
      rp.StartOperation (by simpa using hben.2.2.2.2.2.2)
    exact ⟨by simp [FaultTolerantHdfsAccessor.Mkdir, mkdirRun_eq, h],
      by simp [mkdirRun_eq, h], by simp [mkdirRun_eq, h]⟩

/-- Witness for C3, matching the spec's scenario: `Stat` on a path whose
stat fails with a benign "not found" error makes exactly one underlying
call and returns the benign error verbatim. -/
theorem ftAccessor_C3_witness :
    ((FaultTolerantHdfsAccessor.mk sampleBenign ⟨5⟩).Stat "/missing").2 =
      some (HdfsError.benign "not found") ∧
    ((FaultTolerantHdfsAccessor.mk sampleBenign ⟨5⟩).statRun "/missing").calls = 1 ∧
    ((FaultTolerantHdfsAccessor.mk sampleBenign ⟨5⟩).statRun "/missing").queries ≤ 1 := by
  have h := ftAccessor_C3_benign_first_call sampleBenign ⟨5⟩ "/missing" 7 (by decide)
  exact ⟨h.2.2.2.2.2.1.1, h.2.2.2.2.2.1.2.1, h.2.2.2.2.2.1.2.2⟩

/-- C4: whenever `OpenRead` succeeds (after any number of retryable
failures within budget), the returned handle is the fault-tolerant reader
wrapper at logical offset 0 carrying the same path, the wrapped accessor
and the accessor's retry policy, around the raw reader of the successful
attempt; the raw stream is never returned unwrapped. -/
theorem ftAccessor_C4_openRead_wrapped
    (impl : HdfsAccessor) (rp : RetryPolicy) (path : String) (k : Nat)
    (hfail : ∀ i, i < k → IsSuccessOrBenignError (impl.openRead path i).2 = false)
    (hsucc : (impl.openRead path k).2 = none)
    (hk : k < rp.maxAttempts) :
    (FaultTolerantHdfsAccessor.mk impl rp).OpenRead path =
      (some (FaultTolerantHdfsReader.mk path (impl.openRead path k).1 impl rp 0),
        none) := by
  have h := retryLoop_fail_then_benign (impl.openRead path) (openReadDiag path)
    (ImplCall.openRead path) k rp.maxAttempts 0 rp.StartOperation
    (fun i hi => by simpa using hfail i hi)
    (by simpa [IsSuccessOrBenignError] using congrArg IsSuccessOrBenignError hsucc)
    (by simp [RetryPolicy.StartOperation]; omega) (by omega)
  simp [FaultTolerantHdfsAccessor.OpenRead, openReadRun_eq, h, hsucc,
    LoopRes.withValue, NewFaultTolerantHdfsReader]

/-- Witness for C4: one retryable failure, then success; the returned
handle is the wrapper at offset 0 with the path, accessor and policy. -/
theorem ftAccessor_C4_witness :
    (FaultTolerantHdfsAccessor.mk (sampleFailThenOk 1) ⟨2⟩).OpenRead "/a" =
      (some (FaultTolerantHdfsReader.mk "/a" (some ⟨7⟩) (sampleFailThenOk 1) ⟨2⟩ 0),
        none) :=
  ftAccessor_C4_openRead_wrapped (sampleFailThenOk 1) ⟨2⟩ "/a" 1
    (by decide) (by decide) (by decide)

/-- C5: whenever `OpenReadForRandomAccess` succeeds (after any number of
retryable failures within budget), the returned handle and size are
exactly the ones produced by the wrapped accessor on the successful
attempt — the handle is not wrapped in any fault-tolerant decorator. -/
theorem ftAccessor_C5_openRandom_unwrapped
    (impl : HdfsAccessor) (rp : RetryPolicy) (path : String) (k : Nat)
    (hfail : ∀ i, i < k →
      IsSuccessOrBenignError (impl.openReadForRandomAccess path i).2.2 = false)
    (hsucc : (impl.openReadForRandomAccess path k).2.2 = none)
    (hk : k < rp.maxAttempts) :
    (FaultTolerantHdfsAccessor.mk impl rp).OpenReadForRandomAccess path =
      ((impl.openReadForRandomAccess path k).1,
        (impl.openReadForRandomAccess path k).2.1, none) := by
  have h := retryLoop_fail_then_benign
    (fun i => (((impl.openReadForRandomAccess path i).1,
      (impl.openReadForRandomAccess path i).2.1),
      (impl.openReadForRandomAccess path i).2.2))
    (openRandomDiag path) (ImplCall.openReadForRandomAccess path) k
    rp.maxAttempts 0 rp.StartOperation
    (fun i hi => by simpa using hfail i hi)
    (by simpa [IsSuccessOrBenignError] using congrArg IsSuccessOrBenignError hsucc)
    (by simp [RetryPolicy.StartOperation]; omega) (by omega)
  simp [FaultTolerantHdfsAccessor.OpenReadForRandomAccess, openRandomRun_eq, h,
    hsucc, LoopRes.withValue]

/-- Witness for C5: one retryable failure, then success; the raw handle
and the size from the wrapped accessor come back untouched. -/
theorem ftAccessor_C5_witness :
    (FaultTolerantHdfsAccessor.mk (sampleFailThenOk 1) ⟨2⟩).OpenReadForRandomAccess "/a" =
      (some ⟨8⟩, 42, none) :=
  ftAccessor_C5_openRandom_unwrapped (sampleFailThenOk 1) ⟨2⟩ "/a" 1
    (by decide) (by decide) (by decide)

/-- C6: whenever `OpenWrite` succeeds (after any number of retryable
failures within budget), the returned value is the fault-tolerant writer
wrapper whose only state is the raw stream of the successful attempt —
the `FaultTolerantHdfsWriter` structure has a single field, so neither
the path nor the retry policy is retained. -/
theorem ftAccessor_C6_openWrite_wrapped
    (impl : HdfsAccessor) (rp : RetryPolicy) (path : String) (k : Nat)
    (hfail : ∀ i, i < k → IsSuccessOrBenignError (impl.openWrite path i).2 = false)
    (hsucc : (impl.openWrite path k).2 = none)
    (hk : k < rp.maxAttempts) :
    (FaultTolerantHdfsAccessor.mk impl rp).OpenWrite path =
      (some (FaultTolerantHdfsWriter.mk (impl.openWrite path k).1), none) := by
  have h := retryLoop_fail_then_benign (impl.openWrite path) (openWriteDiag path)
    (ImplCall.openWrite path) k rp.maxAttempts 0 rp.StartOperation
    (fun i hi => by simpa using hfail i hi)
    (by simpa [IsSuccessOrBenignError] using congrArg IsSuccessOrBenignError hsucc)
    (by simp [RetryPolicy.StartOperation]; omega) (by omega)
  simp [FaultTolerantHdfsAccessor.OpenWrite, openWriteRun_eq, h, hsucc,
    LoopRes.withValue]

/-- Witness for C6: one retryable failure, then success; the returned
writer is the one-field wrapper around the raw stream. -/
theorem ftAccessor_C6_witness :
    (FaultTolerantHdfsAccessor.mk (sampleFailThenOk 1) ⟨2⟩).OpenWrite "/a" =
      (some (FaultTolerantHdfsWriter.mk (some ⟨9⟩)), none) :=
  ftAccessor_C6_openWrite_wrapped (sampleFailThenOk 1) ⟨2⟩ "/a" 1
    (by decide) (by decide) (by decide)

/-- C7: for every accessor operation and every invocation, all retry
decisions of that call go through the single `Operation` started from the
policy at the beginning of the call: the `i`-th `ShouldRetry` decision is
made on the state with the accessor's policy and attempt counter `1 + i` —
exactly the chain obtained by threading `StartOperation`'s fresh state
(policy, counter 1) through the loop — so the counter persists across
attempts and no fresh `Operation` ever appears mid-call; a different call
starts its own chain again at `StartOperation`'s state. -/
theorem ftAccessor_C7_single_operation_per_call
    (impl : HdfsAccessor) (rp : RetryPolicy) (path : String) (mode : Nat) :
    ((FaultTolerantHdfsAccessor.mk impl rp).ensureConnectedRun.opsLog =
      (List.range (FaultTolerantHdfsAccessor.mk impl rp).ensureConnectedRun.queries).map
        (fun i => Operation.mk rp (1 + i))) ∧
    (((FaultTolerantHdfsAccessor.mk impl rp).openReadRun path).opsLog =
      (List.range ((FaultTolerantHdfsAccessor.mk impl rp).openReadRun path).queries).map
        (fun i => Operation.mk rp (1 + i))) ∧
    (((FaultTolerantHdfsAccessor.mk impl rp).openRandomRun path).opsLog =
      (List.range ((FaultTolerantHdfsAccessor.mk impl rp).openRandomRun path).queries).map
        (fun i => Operation.mk rp (1 + i))) ∧
    (((FaultTolerantHdfsAccessor.mk impl rp).openWriteRun path).opsLog =
      (List.range ((FaultTolerantHdfsAccessor.mk impl rp).openWriteRun path).queries).map
        (fun i => Operation.mk rp (1 + i))) ∧
    (((FaultTolerantHdfsAccessor.mk impl rp).readDirRun path).opsLog =
      (List.range ((FaultTolerantHdfsAccessor.mk impl rp).readDirRun path).queries).map
        (fun i => Operation.mk rp (1 + i))) ∧
    (((FaultTolerantHdfsAccessor.mk impl rp).statRun path).opsLog =
      (List.range ((FaultTolerantHdfsAccessor.mk impl rp).statRun path).queries).map
        (fun i => Operation.mk rp (1 + i))) ∧
    (((FaultTolerantHdfsAccessor.mk impl rp).mkdirRun path mode).opsLog =
      (List.range ((FaultTolerantHdfsAccessor.mk impl rp).mkdirRun path mode).queries).map
        (fun i => Operation.mk rp (1 + i))) := by
  refine ⟨?_, ?_, ?_, ?_, ?_, ?_, ?_⟩
  · have h := retryLoop_opsLog_chain (fun i => ((), impl.ensureConnected i))
      connectDiag ImplCall.ensureConnected rp.maxAttempts 0 rp.StartOperation
    simpa [ensureConnectedRun_eq, RetryPolicy.StartOperation] using h
  · have h := retryLoop_opsLog_chain (impl.openRead path) (openReadDiag path)
      (ImplCall.openRead path) rp.maxAttempts 0 rp.StartOperation
    simpa [openReadRun_eq, LoopRes.withValue, RetryPolicy.StartOperation] using h
  · have h := retryLoop_opsLog_chain
      (fun i => (((impl.openReadForRandomAccess path i).1,
        (impl.openReadForRandomAccess path i).2.1),
        (impl.openReadForRandomAccess path i).2.2))
      (openRandomDiag path) (ImplCall.openReadForRandomAccess path)
      rp.maxAttempts 0 rp.StartOperation
    simpa [openRandomRun_eq, LoopRes.withValue, RetryPolicy.StartOperation] using h
  · have h := retryLoop_opsLog_chain (impl.openWrite path) (openWriteDiag path)
      (ImplCall.openWrite path) rp.maxAttempts 0 rp.StartOperation
    simpa [openWriteRun_eq, LoopRes.withValue, RetryPolicy.StartOperation] using h
  · have h := retryLoop_opsLog_chain (impl.readDir path) (readDirDiag path)
      (ImplCall.readDir path) rp.maxAttempts 0 rp.StartOperation
    simpa [readDirRun_eq, RetryPolicy.StartOperation] using h
  · have h := retryLoop_opsLog_chain (impl.stat path) (statDiag path)
      (ImplCall.stat path) rp.maxAttempts 0 rp.StartOperation
    simpa [statRun_eq, RetryPolicy.StartOperation] using h
  · have h := retryLoop_opsLog_chain (fun i => ((), impl.mkdir path mode i))
      (mkdirDiag path mode) (ImplCall.mkdir path mode) rp.maxAttempts 0
      rp.StartOperation
    simpa [mkdirRun_eq, RetryPolicy.StartOperation] using h

/-- C8: every underlying invocation `Mkdir` makes carries exactly the
caller's path and mode, on every attempt; likewise `Stat` and `ReadDir`
pass the caller's path through unchanged on every attempt: the invocation
log of a run is `calls` copies of the one invocation shape built from the
caller's own arguments. -/
theorem ftAccessor_C8_arguments_unchanged
    (impl : HdfsAccessor) (rp : RetryPolicy) (path : String) (mode : Nat) :
    (((FaultTolerantHdfsAccessor.mk impl rp).mkdirRun path mode).log =
      List.replicate ((FaultTolerantHdfsAccessor.mk impl rp).mkdirRun path mode).calls
        (ImplCall.mkdir path mode)) ∧
    (((FaultTolerantHdfsAccessor.mk impl rp).statRun path).log =
      List.replicate ((FaultTolerantHdfsAccessor.mk impl rp).statRun path).calls
        (ImplCall.stat path)) ∧
    (((FaultTolerantHdfsAccessor.mk impl rp).readDirRun path).log =
      List.replicate ((FaultTolerantHdfsAccessor.mk impl rp).readDirRun path).calls
        (ImplCall.readDir path)) := by
  refine ⟨?_, ?_, ?_⟩
  · have h := retryLoop_log_replicate (fun i => ((), impl.mkdir path mode i))
      (mkdirDiag path mode) (ImplCall.mkdir path mode) rp.maxAttempts 0
      rp.StartOperation
    simpa [mkdirRun_eq] using h
  · have h := retryLoop_log_replicate (impl.stat path) (statDiag path)
      (ImplCall.stat path) rp.maxAttempts 0 rp.StartOperation
    simpa [statRun_eq] using h
  · have h := retryLoop_log_replicate (impl.readDir path) (readDirDiag path)
      (ImplCall.readDir path) rp.maxAttempts 0 rp.StartOperation
    simpa [readDirRun_eq] using h

/-- C9: whenever `OpenRead`, `OpenReadForRandomAccess` or `OpenWrite`
returns a non-nil error, the returned handle is `none` (and the size is 0
for random access): the accessor never returns a handle together with an
error, whatever the underlying accessor returned alongside its errors. -/
theorem ftAccessor_C9_error_means_no_handle
    (impl : HdfsAccessor) (rp : RetryPolicy) (path : String) :
    ((((FaultTolerantHdfsAccessor.mk impl rp).OpenRead path).2 ≠ none →
      ((FaultTolerantHdfsAccessor.mk impl rp).OpenRead path).1 = none)) ∧
    ((((FaultTolerantHdfsAccessor.mk impl rp).OpenReadForRandomAccess path).2.2 ≠ none →
      ((FaultTolerantHdfsAccessor.mk impl rp).OpenReadForRandomAccess path).1 = none ∧
      ((FaultTolerantHdfsAccessor.mk impl rp).OpenReadForRandomAccess path).2.1 = 0)) ∧
    ((((FaultTolerantHdfsAccessor.mk impl rp).OpenWrite path).2 ≠ none →
      ((FaultTolerantHdfsAccessor.mk impl rp).OpenWrite path).1 = none)) := by
  refine ⟨?_, ?_, ?_⟩
  · intro h
    simp only [FaultTolerantHdfsAccessor.OpenRead, openReadRun_eq,
      LoopRes.withValue] at h ⊢
    simp [h]
  · intro h
    simp only [FaultTolerantHdfsAccessor.OpenReadForRandomAccess, openRandomRun_eq,
      LoopRes.withValue] at h ⊢
    simp [h]
  · intro h
    simp only [FaultTolerantHdfsAccessor.OpenWrite, openWriteRun_eq,
      LoopRes.withValue] at h ⊢
    simp [h]

/-- Witness for C9: with an always-failing wrapped accessor the three
open operations return a nil handle (and size 0). -/
theorem ftAccessor_C9_witness :
    ((FaultTolerantHdfsAccessor.mk sampleAlwaysFail ⟨2⟩).OpenRead "/a").1 = none ∧
    ((FaultTolerantHdfsAccessor.mk sampleAlwaysFail ⟨2⟩).OpenReadForRandomAccess "/a").1 = none ∧
    ((FaultTolerantHdfsAccessor.mk sampleAlwaysFail ⟨2⟩).OpenReadForRandomAccess "/a").2.1 = 0 ∧
    ((FaultTolerantHdfsAccessor.mk sampleAlwaysFail ⟨2⟩).OpenWrite "/a").1 = none := by
  have h := ftAccessor_C9_error_means_no_handle sampleAlwaysFail ⟨2⟩ "/a"
  exact ⟨h.1 (by decide), (h.2.1 (by decide)).1, (h.2.1 (by decide)).2,
    h.2.2 (by decide)⟩

/-- C10: for every accessor operation, `ShouldRetry` is consulted exactly
once per performed underlying call whose error is classified retryable,
and zero times for a call classified success-or-benign (the loop's exit
test short-circuits), so the total number of consultations equals the
number of performed attempts with retryable errors. -/
theorem ftAccessor_C10_shouldRetry_per_attempt
    (impl : HdfsAccessor) (rp : RetryPolicy) (path : String) (mode : Nat) :
    ((FaultTolerantHdfsAccessor.mk impl rp).ensureConnectedRun.queries =
      (List.range (FaultTolerantHdfsAccessor.mk impl rp).ensureConnectedRun.calls).countP
        (fun i => !IsSuccessOrBenignError (impl.ensureConnected i))) ∧
    (((FaultTolerantHdfsAccessor.mk impl rp).openReadRun path).queries =
      (List.range ((FaultTolerantHdfsAccessor.mk impl rp).openReadRun path).calls).countP
        (fun i => !IsSuccessOrBenignError (impl.openRead path i).2)) ∧
    (((FaultTolerantHdfsAccessor.mk impl rp).openRandomRun path).queries =
      (List.range ((FaultTolerantHdfsAccessor.mk impl rp).openRandomRun path).calls).countP
        (fun i => !IsSuccessOrBenignError (impl.openReadForRandomAccess path i).2.2)) ∧
    (((FaultTolerantHdfsAccessor.mk impl rp).openWriteRun path).queries =
      (List.range ((FaultTolerantHdfsAccessor.mk impl rp).openWriteRun path).calls).countP
        (fun i => !IsSuccessOrBenignError (impl.openWrite path i).2)) ∧
    (((FaultTolerantHdfsAccessor.mk impl rp).readDirRun path).queries =
      (List.range ((FaultTolerantHdfsAccessor.mk impl rp).readDirRun path).calls).countP
        (fun i => !IsSuccessOrBenignError (impl.readDir path i).2)) ∧
    (((FaultTolerantHdfsAccessor.mk impl rp).statRun path).queries =
      (List.range ((FaultTolerantHdfsAccessor.mk impl rp).statRun path).calls).countP
        (fun i => !IsSuccessOrBenignError (impl.stat path i).2)) ∧
    (((FaultTolerantHdfsAccessor.mk impl rp).mkdirRun path mode).queries =
      (List.range ((FaultTolerantHdfsAccessor.mk impl rp).mkdirRun path mode).calls).countP
        (fun i => !IsSuccessOrBenignError (impl.mkdir path mode i))) := by
  refine ⟨?_, ?_, ?_, ?_, ?_, ?_, ?_⟩
  · have h := retryLoop_queries_count (fun i => ((), impl.ensureConnected i))
      connectDiag ImplCall.ensureConnected rp.maxAttempts 0 rp.StartOperation
    simpa [ensureConnectedRun_eq] using h
  · have h := retryLoop_queries_count (impl.openRead path) (openReadDiag path)
      (ImplCall.openRead path) rp.maxAttempts 0 rp.StartOperation
    simpa [openReadRun_eq, LoopRes.withValue] using h
  · have h := retryLoop_queries_count
      (fun i => (((impl.openReadForRandomAccess path i).1,
        (impl.openReadForRandomAccess path i).2.1),
        (impl.openReadForRandomAccess path i).2.2))
      (openRandomDiag path) (ImplCall.openReadForRandomAccess path)
      rp.maxAttempts 0 rp.StartOperation
    simpa [openRandomRun_eq, LoopRes.withValue] using h
  · have h := retryLoop_queries_count (impl.openWrite path) (openWriteDiag path)
      (ImplCall.openWrite path) rp.maxAttempts 0 rp.StartOperation
    simpa [openWriteRun_eq, LoopRes.withValue] using h
  · have h := retryLoop_queries_count (impl.readDir path) (readDirDiag path)
      (ImplCall.readDir path) rp.maxAttempts 0 rp.StartOperation
    simpa [readDirRun_eq] using h
  · have h := retryLoop_queries_count (impl.stat path) (statDiag path)
      (ImplCall.stat path) rp.maxAttempts 0 rp.StartOperation
    simpa [statRun_eq] using h
  · have h := retryLoop_queries_count (fun i => ((), impl.mkdir path mode i))
      (mkdirDiag path mode) (ImplCall.mkdir path mode) rp.maxAttempts 0
      rp.StartOperation
    simpa [mkdirRun_eq] using h
